import Mathlib

/-!
Shallow embedding of the Portfolio VaR/ES calculator.

The repository computes portfolio Value-at-Risk and Expected Shortfall with
two methods: a closed-form parametric (variance-covariance) method
(`src/parametric_method.py`) and a Monte Carlo simulation method
(`src/monte_carlo_method.py`), sharing the annual-to-daily rescaling helper
(`src/utils.py`).  Machine floats are modelled by real numbers; the external
numerical library calls (`scipy.stats.norm.ppf`, `scipy.stats.norm.pdf`,
`np.linalg.cholesky`) are modelled by their mathematical contracts.
-/

open MeasureTheory Real Filter Set Topology
open scoped Classical

namespace PortfolioVaR

/-- The portfolio configuration dictionary (`portfolio_config`).  The source
passes a Python dict; the keys used by the two calculators are the fields
below.  `n` is the number of assets (`num_assets = len(weights)`). -/
structure PortfolioConfig (n : ℕ) where
  portfolio_value : ℝ
  weights : Fin n → ℝ
  expected_annual_returns : Fin n → ℝ
  annual_volatilities : Fin n → ℝ
  correlation_matrix : Matrix (Fin n) (Fin n) ℝ
  confidence_level : ℝ
  time_horizon_days : ℕ
  num_simulations : ℕ
  trading_days_per_year : ℕ

/-! ### utils.py -/

/-- `utils.convert_annual_to_daily`: linear scaling for returns,
square-root-of-time scaling for volatilities. -/
noncomputable def convert_annual_to_daily (annual_value : ℝ) (trading_days : ℕ)
    ( is_volatility : Bool) : ℝ :=
  if is_volatility then annual_value / Real.sqrt trading_days
  else annual_value / trading_days

/-! ### The standard normal distribution

`scipy.stats.norm.pdf` and `scipy.stats.norm.ppf` are external library
routines; they are modelled by the density of the standard normal
distribution and by a choice of a point where the cumulative distribution
function attains the requested probability. -/

/-- Standard normal probability density (contract of `scipy.stats.norm.pdf`). -/
noncomputable def normalPDF (z : ℝ) : ℝ :=
  Real.exp (-(z ^ 2) / 2) / Real.sqrt (2 * Real.pi)

/-- Standard normal cumulative distribution function. -/
noncomputable def normalCDF (z : ℝ) : ℝ :=
  ∫ t in Iic z, normalPDF t

/-- Contract of `scipy.stats.norm.ppf`: a point where the standard normal CDF
equals the requested probability, when one exists (it exists for every
probability in (0,1), and is then unique since the CDF is strictly
increasing). -/
noncomputable def normPPF (a : ℝ) : ℝ :=
  if h : ∃ z : ℝ, normalCDF z = a then h.choose else 0

/-! ### parametric_method.py — `calculate_parametric_var_es`

Each local variable of the source function becomes a definition taking the
configuration as argument, in the order the source computes them. -/

variable {n : ℕ}

/-- `daily_returns = convert_annual_to_daily(annual_returns, trading_days, is_volatility=False)`
(applied elementwise by numpy broadcasting). -/
noncomputable def daily_returns (cfg : PortfolioConfig n) : Fin n → ℝ := fun i =>
  convert_annual_to_daily (cfg.expected_annual_returns i) cfg.trading_days_per_year false

/-- `daily_vols = convert_annual_to_daily(annual_vols, trading_days, is_volatility=True)`. -/
noncomputable def daily_vols (cfg : PortfolioConfig n) : Fin n → ℝ := fun i =>
  convert_annual_to_daily (cfg.annual_volatilities i) cfg.trading_days_per_year true

/-- `portfolio_daily_mean_return = np.dot(weights, daily_returns)`. -/
noncomputable def portfolio_daily_mean_return (cfg : PortfolioConfig n) : ℝ :=
  Matrix.dotProduct cfg.weights (daily_returns cfg)

/-- `daily_covariance_matrix = D_daily @ corr_matrix @ D_daily` with
`D_daily = np.diag(daily_vols)`. -/
noncomputable def daily_covariance_matrix (cfg : PortfolioConfig n) :
    Matrix (Fin n) (Fin n) ℝ :=
  Matrix.diagonal (daily_vols cfg) * cfg.correlation_matrix *
    Matrix.diagonal (daily_vols cfg)

/-- `portfolio_daily_variance = weights.T @ daily_covariance_matrix @ weights`,
before the non-negativity clamp. -/
noncomputable def portfolio_daily_variance_raw (cfg : PortfolioConfig n) : ℝ :=
  Matrix.dotProduct cfg.weights ((daily_covariance_matrix cfg).mulVec cfg.weights)

/-- The value of `portfolio_daily_variance` after the
`if portfolio_daily_variance < 0: portfolio_daily_variance = 0` safeguard. -/
noncomputable def portfolio_daily_variance (cfg : PortfolioConfig n) : ℝ :=
  if portfolio_daily_variance_raw cfg < 0 then 0 else portfolio_daily_variance_raw cfg

/-- `portfolio_daily_volatility = np.sqrt(portfolio_daily_variance)`. -/
noncomputable def portfolio_daily_volatility (cfg : PortfolioConfig n) : ℝ :=
  Real.sqrt (portfolio_daily_variance cfg)

/-- `adj_portfolio_mean_return = portfolio_daily_mean_return * time_horizon`. -/
noncomputable def adj_portfolio_mean_return (cfg : PortfolioConfig n) : ℝ :=
  portfolio_daily_mean_return cfg * cfg.time_horizon_days

/-- `adj_portfolio_volatility = portfolio_daily_volatility * np.sqrt(time_horizon)`. -/
noncomputable def adj_portfolio_volatility (cfg : PortfolioConfig n) : ℝ :=
  portfolio_daily_volatility cfg * Real.sqrt cfg.time_horizon_days

/-- `z_score = scipy.stats.norm.ppf(alpha)` with `alpha = 1 - confidence_level`. -/
noncomputable def z_score (cfg : PortfolioConfig n) : ℝ :=
  normPPF (1 - cfg.confidence_level)

/-- `var_parametric_return = adj_portfolio_mean_return + adj_portfolio_volatility * z_score`. -/
noncomputable def var_parametric_return (cfg : PortfolioConfig n) : ℝ :=
  adj_portfolio_mean_return cfg + adj_portfolio_volatility cfg * z_score cfg

/-- `var_parametric_value = max(0, -var_parametric_return * portfolio_value)`. -/
noncomputable def var_parametric_value (cfg : PortfolioConfig n) : ℝ :=
  max 0 (-(var_parametric_return cfg) * cfg.portfolio_value)

/-- The `es_parametric_return` branch chain of the source.  In the
`alpha == 0` branch the source computes `mean - vol * np.inf`, a non-finite
float with no counterpart in ℝ; that branch is unreachable for every
confidence level below 1 and is represented here by the (equally unreachable)
value `adj_portfolio_mean_return`. -/
noncomputable def es_parametric_return (cfg : PortfolioConfig n) : ℝ :=
  if 1 - cfg.confidence_level = 0 then adj_portfolio_mean_return cfg
  else if adj_portfolio_volatility cfg = 0 then adj_portfolio_mean_return cfg
  else
    adj_portfolio_mean_return cfg -
      adj_portfolio_volatility cfg * (normalPDF (z_score cfg) / (1 - cfg.confidence_level))

/-- `es_parametric_value = max(0, -es_parametric_return * portfolio_value)`. -/
noncomputable def es_parametric_value (cfg : PortfolioConfig n) : ℝ :=
  max 0 (-(es_parametric_return cfg) * cfg.portfolio_value)

/-- The tuple returned by `calculate_parametric_var_es`. -/
noncomputable def calculate_parametric_var_es (cfg : PortfolioConfig n) :
    ℝ × ℝ × ℝ × ℝ :=
  (var_parametric_value cfg, es_parametric_value cfg,
   var_parametric_return cfg, es_parametric_return cfg)

/-! ### monte_carlo_method.py — `calculate_monte_carlo_var_es`

The simulation consumes an external stream of independent standard-normal
draws (`np.random.normal(0, 1, size=num_assets)`); the stream is modelled by
a function giving, for each simulation path and each day inside the horizon,
the vector of draws for that day. -/

/-- `np.mean` of a one-dimensional array: sum divided by length. -/
noncomputable def npMean (l : List ℝ) : ℝ := l.sum / l.length

/-- Contract of `np.linalg.cholesky`: the lower-triangular matrix `L` with
`L @ L.T` equal to the input, when one exists.  The claims about the
simulator hold for every factor, so only well-definedness matters here. -/
noncomputable def choleskyFactor (S : Matrix (Fin n) (Fin n) ℝ) :
    Matrix (Fin n) (Fin n) ℝ :=
  if h : ∃ L : Matrix (Fin n) (Fin n) ℝ,
      (∀ i j : Fin n, i < j → L i j = 0) ∧ L * L.transpose = S then
    h.choose
  else 0

/-- One day of one path:
`sim_daily_portfolio_return = np.dot(weights, daily_returns + L_matrix @ standard_random_numbers)`. -/
noncomputable def sim_daily_portfolio_return (w dr : Fin n → ℝ)
    (L : Matrix (Fin n) (Fin n) ℝ) (z : Fin n → ℝ) : ℝ :=
  Matrix.dotProduct w (fun i => dr i + L.mulVec z i)

/-- The inner day loop: starting from `portfolio_value`, multiply by
`(1 + sim_daily_portfolio_return)` once per day of the horizon; `z d` is the
standard-normal draw vector of day `d` of this path. -/
noncomputable def current_portfolio_value_sim (cfg : PortfolioConfig n)
    (dr : Fin n → ℝ) (L : Matrix (Fin n) (Fin n) ℝ) (z : ℕ → Fin n → ℝ) : ℝ :=
  (List.range cfg.time_horizon_days).foldl
    (fun v d => v * (1 + sim_daily_portfolio_return cfg.weights dr L (z d)))
    cfg.portfolio_value

/-- `sim_horizon_portfolio_returns[i] = current_portfolio_value_sim / portfolio_value - 1`,
one entry per simulation path. -/
noncomputable def sim_horizon_portfolio_returns (cfg : PortfolioConfig n)
    (dr : Fin n → ℝ) (L : Matrix (Fin n) (Fin n) ℝ)
    (draws : ℕ → ℕ → Fin n → ℝ) : List ℝ :=
  (List.range cfg.num_simulations).map fun i =>
    current_portfolio_value_sim cfg dr L (draws i) / cfg.portfolio_value - 1

/-- `sorted_sim_returns = np.sort(sim_horizon_portfolio_returns)` (ascending). -/
noncomputable def sorted_sim_returns (cfg : PortfolioConfig n)
    (dr : Fin n → ℝ) (L : Matrix (Fin n) (Fin n) ℝ)
    (draws : ℕ → ℕ → Fin n → ℝ) : List ℝ :=
  (sim_horizon_portfolio_returns cfg dr L draws).insertionSort (· ≤ ·)

/-- `var_index = max(0, min(int(alpha * num_simulations), num_simulations - 1))`.
Python `int()` truncates toward zero; after the clamp to
`[0, num_simulations - 1]` truncation and `Int.floor` give the same value,
so the floor is used.  The arithmetic is over ℤ, as in Python. -/
noncomputable def var_index (cfg : PortfolioConfig n) : ℕ :=
  (max 0 (min ⌊(1 - cfg.confidence_level) * (cfg.num_simulations : ℝ)⌋
    ((cfg.num_simulations : ℤ) - 1))).toNat

/-- `var_mc_return = sorted_sim_returns[var_index]`.  The source indexes the
array directly; the clamp keeps the index in bounds whenever
`num_simulations ≥ 1`, so the default value of `getD` is never consulted. -/
noncomputable def var_mc_return (cfg : PortfolioConfig n)
    (dr : Fin n → ℝ) (L : Matrix (Fin n) (Fin n) ℝ)
    (draws : ℕ → ℕ → Fin n → ℝ) : ℝ :=
  (sorted_sim_returns cfg dr L draws).getD (var_index cfg) 0

/-- `var_mc_value = max(0, -var_mc_return * portfolio_value)`. -/
noncomputable def var_mc_value (cfg : PortfolioConfig n)
    (dr : Fin n → ℝ) (L : Matrix (Fin n) (Fin n) ℝ)
    (draws : ℕ → ℕ → Fin n → ℝ) : ℝ :=
  max 0 (-(var_mc_return cfg dr L draws) * cfg.portfolio_value)

/-- The `es_mc_return` branch chain of the source:
no-loss special case, proper tail mean, or whole-sample mean. -/
noncomputable def es_mc_return (cfg : PortfolioConfig n)
    (dr : Fin n → ℝ) (L : Matrix (Fin n) (Fin n) ℝ)
    (draws : ℕ → ℕ → Fin n → ℝ) : ℝ :=
  if var_index cfg = 0 ∧ 0 ≤ (sorted_sim_returns cfg dr L draws).getD 0 0 then
    (sorted_sim_returns cfg dr L draws).getD 0 0
  else if (var_index cfg : ℤ) < (cfg.num_simulations : ℤ) - 1 then
    npMean ((sorted_sim_returns cfg dr L draws).take (var_index cfg + 1))
  else
    npMean (sorted_sim_returns cfg dr L draws)

/-- `es_mc_value = max(0, -es_mc_return * portfolio_value)`. -/
noncomputable def es_mc_value (cfg : PortfolioConfig n)
    (dr : Fin n → ℝ) (L : Matrix (Fin n) (Fin n) ℝ)
    (draws : ℕ → ℕ → Fin n → ℝ) : ℝ :=
  max 0 (-(es_mc_return cfg dr L draws) * cfg.portfolio_value)

/-- The five components returned by a successful Monte Carlo run. -/
structure MCResult where
  var_value : ℝ
  es_value : ℝ
  var_return : ℝ
  es_return : ℝ
  sorted_returns : List ℝ

/-- The successful branch of `calculate_monte_carlo_var_es`, given the
Cholesky factor `L` of the daily covariance matrix. -/
noncomputable def mcRun (cfg : PortfolioConfig n) (dr : Fin n → ℝ)
    (L : Matrix (Fin n) (Fin n) ℝ) (draws : ℕ → ℕ → Fin n → ℝ) : MCResult where
  var_value := var_mc_value cfg dr L draws
  es_value := es_mc_value cfg dr L draws
  var_return := var_mc_return cfg dr L draws
  es_return := es_mc_return cfg dr L draws
  sorted_returns := sorted_sim_returns cfg dr L draws

/-- `calculate_monte_carlo_var_es`.  The function first factors the supplied
daily covariance matrix (`np.linalg.cholesky` succeeds exactly on positive
definite input) and raises `ValueError` when factorization fails; otherwise
it runs the simulation.  The `daily_vols` argument is accepted but never read
by the function body. -/
noncomputable def calculate_monte_carlo_var_es (cfg : PortfolioConfig n)
    (dr dv : Fin n → ℝ) (daily_cov_matrix : Matrix (Fin n) (Fin n) ℝ)
    (draws : ℕ → ℕ → Fin n → ℝ) : Except String MCResult :=
  if daily_cov_matrix.PosDef then
    Except.ok (mcRun cfg dr (choleskyFactor daily_cov_matrix) draws)
  else
    Except.error
      "Daily covariance matrix is not positive definite. Cholesky decomposition failed."

/-! ### Lemmas about the standard normal distribution

The inequality `0 ≤ φ(z) + z·Φ(z)` (a Mills-ratio bound) is what makes the
Gaussian expected shortfall a deeper loss than the Gaussian VaR. -/

theorem sqrt_two_pi_pos : 0 < Real.sqrt (2 * Real.pi) :=
  Real.sqrt_pos.mpr (by positivity)

theorem normalPDF_pos (z : ℝ) : 0 < normalPDF z :=
  div_pos (Real.exp_pos _) sqrt_two_pi_pos

theorem gauss_integrable : Integrable (fun t : ℝ => Real.exp (-(t ^ 2) / 2)) := by
  have h := integrable_exp_neg_mul_sq (show (0:ℝ) < 1/2 by norm_num)
  refine h.congr (Eventually.of_forall fun t => ?_)
  show Real.exp (-(1/2 : ℝ) * t ^ 2) = Real.exp (-(t ^ 2) / 2)
  congr 1
  ring

theorem normalPDF_integrable : Integrable normalPDF := by
  have h := gauss_integrable.div_const (Real.sqrt (2 * Real.pi))
  exact h

theorem xgauss_integrable : Integrable (fun t : ℝ => t * Real.exp (-(t ^ 2) / 2)) := by
  have h := integrable_mul_exp_neg_mul_sq (show (0:ℝ) < 1/2 by norm_num)
  refine h.congr (Eventually.of_forall fun t => ?_)
  show t * Real.exp (-(1/2 : ℝ) * t ^ 2) = t * Real.exp (-(t ^ 2) / 2)
  congr 2
  ring

theorem integral_Iic_xgauss (z : ℝ) :
    ∫ t in Iic z, t * Real.exp (-(t ^ 2) / 2) = -Real.exp (-(z ^ 2) / 2) := by
  have hderiv : ∀ x ∈ Iic z, HasDerivAt (fun t : ℝ => -Real.exp (-(t ^ 2) / 2))
      (x * Real.exp (-(x ^ 2) / 2)) x := by
    intro x _
    have h0 : HasDerivAt (fun t : ℝ => t ^ 2) (2 * x) x := by
      simpa using hasDerivAt_pow 2 x
    have h1 : HasDerivAt (fun t : ℝ => -(t ^ 2) / 2) (-x) x := by
      have h := h0.neg.div_const 2
      convert h using 1
      ring
    have h3 := h1.exp.neg
    convert h3 using 1
    ring
  have htail : Tendsto (fun t : ℝ => -Real.exp (-(t ^ 2) / 2)) atBot (𝓝 0) := by
    have hsq : Tendsto (fun t : ℝ => t ^ 2) atBot atTop := by
      have h := (tendsto_pow_atTop (show (2:ℕ) ≠ 0 by norm_num)).comp
        (tendsto_neg_atBot_atTop (β := ℝ))
      refine h.congr fun t => ?_
      simp [Function.comp]
    have harg : Tendsto (fun t : ℝ => -(t ^ 2) / 2) atBot atBot :=
      (tendsto_neg_atTop_atBot.comp hsq).atBot_div_const (by norm_num)
    have hexp : Tendsto (fun t : ℝ => Real.exp (-(t ^ 2) / 2)) atBot (𝓝 0) := by
      simpa using harg
    simpa using hexp.neg
  have h := integral_Iic_of_hasDerivAt_of_tendsto' hderiv
    xgauss_integrable.integrableOn htail
  simpa using h

theorem normalCDF_nonneg (z : ℝ) : 0 ≤ normalCDF z :=
  setIntegral_nonneg measurableSet_Iic fun x _ => (normalPDF_pos x).le

theorem gauss_Iic_le {z : ℝ} (hz : z < 0) :
    ∫ t in Iic z, Real.exp (-(t ^ 2) / 2) ≤ Real.exp (-(z ^ 2) / 2) / (-z) := by
  have hmono : ∫ t in Iic z, Real.exp (-(t ^ 2) / 2) ≤
      ∫ t in Iic z, t * Real.exp (-(t ^ 2) / 2) / z := by
    refine setIntegral_mono_on gauss_integrable.integrableOn
      (xgauss_integrable.div_const z).integrableOn measurableSet_Iic ?_
    intro t ht
    have h1 : 1 ≤ t / z := by
      rw [le_div_iff_of_neg hz]
      simpa using ht.out
    calc Real.exp (-(t ^ 2) / 2) = 1 * Real.exp (-(t ^ 2) / 2) := (one_mul _).symm
      _ ≤ (t / z) * Real.exp (-(t ^ 2) / 2) :=
          mul_le_mul_of_nonneg_right h1 (Real.exp_pos _).le
      _ = t * Real.exp (-(t ^ 2) / 2) / z := by ring
  have hval : (∫ t in Iic z, t * Real.exp (-(t ^ 2) / 2) / z)
      = Real.exp (-(z ^ 2) / 2) / (-z) := by
    rw [integral_div, integral_Iic_xgauss, neg_div, div_neg]
  rw [hval] at hmono
  exact hmono

/-- Mills-ratio bound: `0 ≤ φ(z) + z·Φ(z)` for every real `z`. -/
theorem normalPDF_add_mul_cdf_nonneg (z : ℝ) : 0 ≤ normalPDF z + z * normalCDF z := by
  rcases le_or_lt 0 z with hz | hz
  · exact add_nonneg (normalPDF_pos z).le (mul_nonneg hz (normalCDF_nonneg z))
  · have hI := gauss_Iic_le hz
    have hInn : 0 ≤ ∫ t in Iic z, Real.exp (-(t ^ 2) / 2) :=
      setIntegral_nonneg measurableSet_Iic fun x _ => (Real.exp_pos _).le
    have hcdf : normalCDF z =
        (∫ t in Iic z, Real.exp (-(t ^ 2) / 2)) / Real.sqrt (2 * Real.pi) := by
      unfold normalCDF normalPDF
      exact integral_div _ _
    have hmul : (-z) * (∫ t in Iic z, Real.exp (-(t ^ 2) / 2)) ≤
        Real.exp (-(z ^ 2) / 2) := by
      have h := mul_le_mul_of_nonneg_left hI (by linarith : (0:ℝ) ≤ -z)
      rwa [mul_div_cancel₀ _ (by linarith : -z ≠ 0)] at h
    have hkey : 0 ≤ Real.exp (-(z ^ 2) / 2) +
        z * ∫ t in Iic z, Real.exp (-(t ^ 2) / 2) := by nlinarith
    rw [normalPDF, hcdf]
    have hc := sqrt_two_pi_pos
    rw [show Real.exp (-(z ^ 2) / 2) / Real.sqrt (2 * Real.pi) +
        z * ((∫ t in Iic z, Real.exp (-(t ^ 2) / 2)) / Real.sqrt (2 * Real.pi)) =
        (Real.exp (-(z ^ 2) / 2) + z * ∫ t in Iic z, Real.exp (-(t ^ 2) / 2)) /
          Real.sqrt (2 * Real.pi) from by ring]
    exact div_nonneg hkey hc.le

theorem normalCDF_normPPF {a : ℝ} (h : ∃ z : ℝ, normalCDF z = a) :
    normalCDF (normPPF a) = a := by
  rw [normPPF, dif_pos h]
  exact h.choose_spec

/-- At the point returned by the quantile routine, `0 ≤ z + φ(z)/a`.  This is
exactly the quantity separating the parametric VaR return from the parametric
ES return. -/
theorem z_add_pdf_div_nonneg {a : ℝ} (ha : 0 < a) :
    0 ≤ normPPF a + normalPDF (normPPF a) / a := by
  by_cases h : ∃ z : ℝ, normalCDF z = a
  · have hz := normalCDF_normPPF h
    have hm := normalPDF_add_mul_cdf_nonneg (normPPF a)
    rw [hz] at hm
    have hdiv : 0 ≤ (normalPDF (normPPF a) + normPPF a * a) / a := div_nonneg hm ha.le
    calc (0:ℝ) ≤ (normalPDF (normPPF a) + normPPF a * a) / a := hdiv
      _ = normPPF a + normalPDF (normPPF a) / a := by field_simp; ring
  · rw [normPPF, dif_neg h]
    simpa using (div_nonneg (normalPDF_pos 0).le ha.le)

/-! ### Parametric calculator: claim theorems -/

theorem adj_portfolio_volatility_nonneg (cfg : PortfolioConfig n) :
    0 ≤ adj_portfolio_volatility cfg :=
  mul_nonneg (Real.sqrt_nonneg _) (Real.sqrt_nonneg _)

/-- C2: for every portfolio configuration with confidence level in (0,1),
positive portfolio value and positive semi-definite correlation matrix, the
parametric calculator returns an expected shortfall at least as deep as the
VaR: `es_return ≤ var_return` and `var_value ≤ es_value`. -/
theorem parametric_es_deeper (cfg : PortfolioConfig n)
    (hc0 : 0 < cfg.confidence_level) (hc1 : cfg.confidence_level < 1)
    (hpv : 0 < cfg.portfolio_value)
    (hpsd : cfg.correlation_matrix.PosSemidef) :
    es_parametric_return cfg ≤ var_parametric_return cfg ∧
    var_parametric_value cfg ≤ es_parametric_value cfg := by
  have hα : 0 < 1 - cfg.confidence_level := by linarith
  have hret : es_parametric_return cfg ≤ var_parametric_return cfg := by
    rw [es_parametric_return,
      if_neg (show ¬(1 - cfg.confidence_level = 0) by intro h0; linarith)]
    by_cases hσ : adj_portfolio_volatility cfg = 0
    · rw [if_pos hσ, var_parametric_return, hσ]
      simp
    · rw [if_neg hσ, var_parametric_return]
      have hσ0 : 0 < adj_portfolio_volatility cfg :=
        lt_of_le_of_ne (adj_portfolio_volatility_nonneg cfg) (Ne.symm hσ)
      have hz := z_add_pdf_div_nonneg hα
      rw [z_score]
      nlinarith [mul_nonneg hσ0.le hz]
  refine ⟨hret, ?_⟩
  rw [var_parametric_value, es_parametric_value]
  have h2 : -(var_parametric_return cfg) * cfg.portfolio_value ≤
      -(es_parametric_return cfg) * cfg.portfolio_value := by nlinarith
  exact max_le_max le_rfl h2

/-- C7: if the horizon-adjusted volatility is exactly zero, both the
parametric ES return and the parametric VaR return collapse to the
horizon-adjusted mean return. -/
theorem parametric_zero_vol (cfg : PortfolioConfig n)
    (hc0 : 0 < cfg.confidence_level) (hc1 : cfg.confidence_level < 1)
    (hσ : adj_portfolio_volatility cfg = 0) :
    es_parametric_return cfg = adj_portfolio_mean_return cfg ∧
    var_parametric_return cfg = adj_portfolio_mean_return cfg := by
  constructor
  · rw [es_parametric_return,
      if_neg (show ¬(1 - cfg.confidence_level = 0) by intro h0; linarith),
      if_pos hσ]
  · rw [var_parametric_return, hσ, zero_mul, add_zero]

/-- C8: the annual-to-daily converter scales returns linearly and
volatilities by the square root of time. -/
theorem convert_annual_to_daily_spec (a : ℝ) (d : ℕ) (hd : 0 < d) :
    convert_annual_to_daily a d false = a / d ∧
    convert_annual_to_daily a d true = a / Real.sqrt d := by
  constructor <;> simp [convert_annual_to_daily]

/-- C9: the parametric calculator never feeds a negative number to the
square root: the portfolio daily variance used downstream is non-negative,
a negative raw variance is silently replaced by zero, the volatility is the
square root of the clamped variance, and a result tuple is always
produced. -/
theorem parametric_clamp_safe (cfg : PortfolioConfig n)
    (hc0 : 0 < cfg.confidence_level) (hc1 : cfg.confidence_level < 1) :
    0 ≤ portfolio_daily_variance cfg ∧
    (portfolio_daily_variance_raw cfg < 0 → portfolio_daily_variance cfg = 0) ∧
    portfolio_daily_volatility cfg = Real.sqrt (portfolio_daily_variance cfg) ∧
    calculate_parametric_var_es cfg =
      (var_parametric_value cfg, es_parametric_value cfg,
       var_parametric_return cfg, es_parametric_return cfg) := by
  refine ⟨?_, fun h => ?_, rfl, rfl⟩
  · rw [portfolio_daily_variance]
    split_ifs with h
    · exact le_rfl
    · exact not_lt.mp h
  · rw [portfolio_daily_variance, if_pos h]

/-! ### Concrete inputs used by the witnesses -/

/-- A one-asset configuration with zero volatility, used to instantiate the
universally quantified theorems at a concrete point. -/
noncomputable def cfgW : PortfolioConfig 1 where
  portfolio_value := 1
  weights := fun _ => 1
  expected_annual_returns := fun _ => 0
  annual_volatilities := fun _ => 0
  correlation_matrix := 1
  confidence_level := 1/2
  time_horizon_days := 1
  num_simulations := 1
  trading_days_per_year := 252

noncomputable def drW : Fin 1 → ℝ := fun _ => 0

noncomputable def LW : Matrix (Fin 1) (Fin 1) ℝ := 1

noncomputable def drawsW : ℕ → ℕ → Fin 1 → ℝ := fun _ _ _ => 0

theorem cfgW_conf_pos : 0 < cfgW.confidence_level := by
  rw [show cfgW.confidence_level = 1/2 from rfl]
  norm_num

theorem cfgW_conf_lt_one : cfgW.confidence_level < 1 := by
  rw [show cfgW.confidence_level = 1/2 from rfl]
  norm_num

theorem cfgW_pv_pos : 0 < cfgW.portfolio_value := by
  rw [show cfgW.portfolio_value = 1 from rfl]
  norm_num

theorem cfgW_corr_psd : cfgW.correlation_matrix.PosSemidef := by
  rw [show cfgW.correlation_matrix = 1 from rfl]
  exact Matrix.PosDef.one.posSemidef

theorem cfgW_adjvol_zero : adj_portfolio_volatility cfgW = 0 := by
  have hdv : daily_vols cfgW = fun _ => 0 := by
    funext i
    rw [daily_vols, show cfgW.annual_volatilities i = 0 from rfl,
      convert_annual_to_daily]
    simp
  have hraw : portfolio_daily_variance_raw cfgW = 0 := by
    rw [portfolio_daily_variance_raw, daily_covariance_matrix, hdv]
    simp
  rw [adj_portfolio_volatility, portfolio_daily_volatility,
    portfolio_daily_variance, hraw]
  simp

/-- Witness for C2 at the concrete one-asset configuration. -/
theorem parametric_es_deeper_witness :
    0 < cfgW.confidence_level ∧ cfgW.confidence_level < 1 ∧
    0 < cfgW.portfolio_value ∧ cfgW.correlation_matrix.PosSemidef ∧
    (es_parametric_return cfgW ≤ var_parametric_return cfgW ∧
     var_parametric_value cfgW ≤ es_parametric_value cfgW) :=
  ⟨cfgW_conf_pos, cfgW_conf_lt_one, cfgW_pv_pos, cfgW_corr_psd,
   parametric_es_deeper cfgW cfgW_conf_pos cfgW_conf_lt_one cfgW_pv_pos cfgW_corr_psd⟩

/-- Witness for C7 at the concrete zero-volatility configuration. -/
theorem parametric_zero_vol_witness :
    0 < cfgW.confidence_level ∧ cfgW.confidence_level < 1 ∧
    adj_portfolio_volatility cfgW = 0 ∧
    (es_parametric_return cfgW = adj_portfolio_mean_return cfgW ∧
     var_parametric_return cfgW = adj_portfolio_mean_return cfgW) :=
  ⟨cfgW_conf_pos, cfgW_conf_lt_one, cfgW_adjvol_zero,
   parametric_zero_vol cfgW cfgW_conf_pos cfgW_conf_lt_one cfgW_adjvol_zero⟩

/-- Witness for C8 at a concrete annual value and day count. -/
theorem convert_annual_to_daily_witness :
    (0 : ℕ) < 252 ∧
    (convert_annual_to_daily 2 252 false = 2 / (252 : ℕ) ∧
     convert_annual_to_daily 2 252 true = 2 / Real.sqrt (252 : ℕ)) :=
  ⟨by norm_num, convert_annual_to_daily_spec 2 252 (by norm_num)⟩

/-- Witness for C9 at the concrete one-asset configuration. -/
theorem parametric_clamp_safe_witness :
    0 < cfgW.confidence_level ∧ cfgW.confidence_level < 1 ∧
    (0 ≤ portfolio_daily_variance cfgW ∧
     (portfolio_daily_variance_raw cfgW < 0 → portfolio_daily_variance cfgW = 0) ∧
     portfolio_daily_volatility cfgW = Real.sqrt (portfolio_daily_variance cfgW) ∧
     calculate_parametric_var_es cfgW =
       (var_parametric_value cfgW, es_parametric_value cfgW,
        var_parametric_return cfgW, es_parametric_return cfgW)) :=
  ⟨cfgW_conf_pos, cfgW_conf_lt_one,
   parametric_clamp_safe cfgW cfgW_conf_pos cfgW_conf_lt_one⟩

/-! ### Monte Carlo simulator: helper lemmas -/

theorem length_sorted_sim_returns (cfg : PortfolioConfig n) (dr : Fin n → ℝ)
    (L : Matrix (Fin n) (Fin n) ℝ) (draws : ℕ → ℕ → Fin n → ℝ) :
    (sorted_sim_returns cfg dr L draws).length = cfg.num_simulations := by
  rw [sorted_sim_returns, List.length_insertionSort, sim_horizon_portfolio_returns,
    List.length_map, List.length_range]

theorem sorted_sorted_sim_returns (cfg : PortfolioConfig n) (dr : Fin n → ℝ)
    (L : Matrix (Fin n) (Fin n) ℝ) (draws : ℕ → ℕ → Fin n → ℝ) :
    List.Sorted (· ≤ ·) (sorted_sim_returns cfg dr L draws) :=
  List.sorted_insertionSort _ _

theorem var_index_lt (cfg : PortfolioConfig n) (hN : 1 ≤ cfg.num_simulations) :
    var_index cfg < cfg.num_simulations := by
  rw [var_index]
  have h1 : max 0 (min ⌊(1 - cfg.confidence_level) * (cfg.num_simulations : ℝ)⌋
      ((cfg.num_simulations : ℤ) - 1)) ≤ (cfg.num_simulations : ℤ) - 1 := by
    apply max_le
    · omega
    · exact min_le_right _ _
  have h2 := Int.toNat_le_toNat h1
  omega

/-- The mean of the first `i + 1` entries of a sorted list is at most the
entry at position `i`. -/
theorem npMean_take_le_get (l : List ℝ) (hs : List.Sorted (· ≤ ·) l) (i : ℕ)
    (hi : i < l.length) : npMean (l.take (i + 1)) ≤ l.get ⟨i, hi⟩ := by
  have hlen : (l.take (i + 1)).length = i + 1 := by
    rw [List.length_take]
    omega
  have hb : ∀ x ∈ l.take (i + 1), x ≤ l.get ⟨i, hi⟩ := by
    intro x hx
    obtain ⟨j, hj⟩ := List.mem_iff_get.mp hx
    have hjl : (j : ℕ) < i + 1 := by
      have h := j.isLt
      omega
    have hje : (l.take (i + 1)).get j = l.get ⟨(j : ℕ), by omega⟩ := by
      simp [List.get_eq_getElem, List.getElem_take]
    rw [← hj, hje]
    exact hs.rel_get_of_le (by simp [Fin.mk_le_mk]; omega)
  have hsum := List.sum_le_card_nsmul (l.take (i + 1)) (l.get ⟨i, hi⟩) hb
  rw [hlen] at hsum
  rw [npMean, hlen, div_le_iff₀ (by exact_mod_cast Nat.succ_pos i)]
  calc (l.take (i + 1)).sum ≤ (i + 1) • l.get ⟨i, hi⟩ := hsum
    _ = l.get ⟨i, hi⟩ * ((i + 1 : ℕ) : ℝ) := by
        rw [nsmul_eq_mul]
        push_cast
        ring

theorem es_le_var_mc (cfg : PortfolioConfig n) (dr : Fin n → ℝ)
    (L : Matrix (Fin n) (Fin n) ℝ) (draws : ℕ → ℕ → Fin n → ℝ)
    (hN : 1 ≤ cfg.num_simulations) :
    es_mc_return cfg dr L draws ≤ var_mc_return cfg dr L draws := by
  have hlen := length_sorted_sim_returns cfg dr L draws
  have hlt0 := var_index_lt cfg hN
  have hlt : var_index cfg < (sorted_sim_returns cfg dr L draws).length := by
    rw [hlen]
    exact hlt0
  have hsorted := sorted_sorted_sim_returns cfg dr L draws
  have hvar : var_mc_return cfg dr L draws =
      (sorted_sim_returns cfg dr L draws).get ⟨var_index cfg, hlt⟩ := by
    rw [var_mc_return, List.getD_eq_getElem _ _ hlt]
    simp [List.get_eq_getElem]
  rw [es_mc_return]
  split_ifs with h1 h2
  · rw [var_mc_return, h1.1]
  · rw [hvar]
    exact npMean_take_le_get _ hsorted _ hlt
  · have hix : var_index cfg + 1 = cfg.num_simulations := by omega
    have heq : npMean (sorted_sim_returns cfg dr L draws) =
        npMean ((sorted_sim_returns cfg dr L draws).take (var_index cfg + 1)) := by
      rw [hix, ← hlen, List.take_length]
    rw [heq, hvar]
    exact npMean_take_le_get _ hsorted _ hlt

/-! ### Monte Carlo simulator: claim theorems -/

/-- C1: the Monte Carlo calculator returns the "not positive definite"
error exactly when the supplied daily covariance matrix is not positive
definite; when factorization succeeds the result is not an error. -/
theorem mc_cholesky_error_iff (cfg : PortfolioConfig n) (dr dv : Fin n → ℝ)
    (S : Matrix (Fin n) (Fin n) ℝ) (draws : ℕ → ℕ → Fin n → ℝ) :
    (calculate_monte_carlo_var_es cfg dr dv S draws =
      Except.error
        "Daily covariance matrix is not positive definite. Cholesky decomposition failed.")
      ↔ ¬ S.PosDef := by
  rw [calculate_monte_carlo_var_es]
  split_ifs with hS
  · simp [hS]
  · simp [hS]

/-- C4: the Monte Carlo VaR index is the clamped floor of
`alpha * num_simulations`, it is always a valid position of the sorted
return sequence when at least one simulation is run (so a single simulation
cannot crash), and the VaR return is the sorted sequence's entry there. -/
theorem mc_var_return_spec (cfg : PortfolioConfig n) (dr : Fin n → ℝ)
    (L : Matrix (Fin n) (Fin n) ℝ) (draws : ℕ → ℕ → Fin n → ℝ)
    (hN : 1 ≤ cfg.num_simulations)
    (hc0 : 0 < cfg.confidence_level) (hc1 : cfg.confidence_level < 1) :
    (var_index cfg : ℤ) =
      max 0 (min ⌊(1 - cfg.confidence_level) * (cfg.num_simulations : ℝ)⌋
        ((cfg.num_simulations : ℤ) - 1)) ∧
    var_index cfg < (sorted_sim_returns cfg dr L draws).length ∧
    ∀ h : var_index cfg < (sorted_sim_returns cfg dr L draws).length,
      var_mc_return cfg dr L draws =
        (sorted_sim_returns cfg dr L draws).get ⟨var_index cfg, h⟩ := by
  have hlen := length_sorted_sim_returns cfg dr L draws
  have hlt : var_index cfg < (sorted_sim_returns cfg dr L draws).length := by
    rw [hlen]
    exact var_index_lt cfg hN
  refine ⟨?_, hlt, fun h => ?_⟩
  · rw [var_index]
    exact Int.toNat_of_nonneg (le_max_left _ _)
  · rw [var_mc_return, List.getD_eq_getElem _ _ h]
    simp [List.get_eq_getElem]

/-- C3: the Monte Carlo ES return is the mean of the sorted returns up to
and including the VaR index; in particular, when the index is 0 and the
single worst return is non-negative, the ES return is that entry itself. -/
theorem mc_es_tail_mean (cfg : PortfolioConfig n) (dr : Fin n → ℝ)
    (L : Matrix (Fin n) (Fin n) ℝ) (draws : ℕ → ℕ → Fin n → ℝ)
    (hN : 1 ≤ cfg.num_simulations) :
    es_mc_return cfg dr L draws =
      npMean ((sorted_sim_returns cfg dr L draws).take (var_index cfg + 1)) ∧
    (var_index cfg = 0 → 0 ≤ (sorted_sim_returns cfg dr L draws).getD 0 0 →
      es_mc_return cfg dr L draws = (sorted_sim_returns cfg dr L draws).getD 0 0) := by
  have hlen := length_sorted_sim_returns cfg dr L draws
  have hlt := var_index_lt cfg hN
  constructor
  · rw [es_mc_return]
    split_ifs with h1 h2
    · obtain ⟨h10, _⟩ := h1
      rw [h10]
      obtain ⟨x, xs, hl⟩ : ∃ x xs, sorted_sim_returns cfg dr L draws = x :: xs := by
        cases h : sorted_sim_returns cfg dr L draws with
        | nil =>
            rw [h] at hlen
            exfalso
            simp at hlen
            omega
        | cons a as => exact ⟨a, as, rfl⟩
      rw [hl]
      simp [npMean]
    · rfl
    · have hix : var_index cfg + 1 = cfg.num_simulations := by omega
      rw [hix, ← hlen, List.take_length]
  · intro h0 hg
    rw [es_mc_return, if_pos ⟨h0, hg⟩]

/-- C5: any successful Monte Carlo run returns an ES return at most the VaR
return and an ES loss value at least the VaR loss value, whatever the
standard-normal draws were. -/
theorem mc_es_deeper (cfg : PortfolioConfig n) (dr dv : Fin n → ℝ)
    (S : Matrix (Fin n) (Fin n) ℝ) (draws : ℕ → ℕ → Fin n → ℝ) {out : MCResult}
    (h : calculate_monte_carlo_var_es cfg dr dv S draws = Except.ok out)
    (hN : 1 ≤ cfg.num_simulations) (hpv : 0 < cfg.portfolio_value) :
    out.es_return ≤ out.var_return ∧ out.var_value ≤ out.es_value := by
  rw [calculate_monte_carlo_var_es] at h
  split_ifs at h with hS
  · cases h
    have hret := es_le_var_mc cfg dr (choleskyFactor S) draws hN
    have h2 : -(var_mc_return cfg dr (choleskyFactor S) draws) * cfg.portfolio_value ≤
        -(es_mc_return cfg dr (choleskyFactor S) draws) * cfg.portfolio_value := by
      nlinarith
    exact ⟨hret, max_le_max le_rfl h2⟩

/-- C6: any successful Monte Carlo run returns a sorted return sequence of
length exactly `num_simulations`, in non-decreasing order. -/
theorem mc_sorted_output (cfg : PortfolioConfig n) (dr dv : Fin n → ℝ)
    (S : Matrix (Fin n) (Fin n) ℝ) (draws : ℕ → ℕ → Fin n → ℝ) {out : MCResult}
    (h : calculate_monte_carlo_var_es cfg dr dv S draws = Except.ok out) :
    out.sorted_returns.length = cfg.num_simulations ∧
    List.Sorted (· ≤ ·) out.sorted_returns := by
  rw [calculate_monte_carlo_var_es] at h
  split_ifs at h with hS
  · cases h
    exact ⟨length_sorted_sim_returns _ _ _ _, sorted_sorted_sim_returns _ _ _ _⟩

/-- C10: the `daily_vols` argument of the Monte Carlo calculator is accepted
but never read, so two runs differing only in it return identical results. -/
theorem mc_daily_vols_unused (cfg : PortfolioConfig n) (dr dv₁ dv₂ : Fin n → ℝ)
    (S : Matrix (Fin n) (Fin n) ℝ) (draws : ℕ → ℕ → Fin n → ℝ) :
    calculate_monte_carlo_var_es cfg dr dv₁ S draws =
      calculate_monte_carlo_var_es cfg dr dv₂ S draws := rfl

/-! ### Monte Carlo witnesses -/

theorem cfgW_one_sim : 1 ≤ cfgW.num_simulations := le_refl 1

theorem calcW_ok :
    calculate_monte_carlo_var_es cfgW drW drW (1 : Matrix (Fin 1) (Fin 1) ℝ) drawsW =
      Except.ok (mcRun cfgW drW (choleskyFactor 1) drawsW) := by
  rw [calculate_monte_carlo_var_es, if_pos Matrix.PosDef.one]

/-- Witness for C4 at the concrete one-asset, one-simulation run. -/
theorem mc_var_return_spec_witness :
    1 ≤ cfgW.num_simulations ∧ 0 < cfgW.confidence_level ∧ cfgW.confidence_level < 1 ∧
    ((var_index cfgW : ℤ) =
      max 0 (min ⌊(1 - cfgW.confidence_level) * (cfgW.num_simulations : ℝ)⌋
        ((cfgW.num_simulations : ℤ) - 1)) ∧
     var_index cfgW < (sorted_sim_returns cfgW drW LW drawsW).length ∧
     ∀ h : var_index cfgW < (sorted_sim_returns cfgW drW LW drawsW).length,
       var_mc_return cfgW drW LW drawsW =
         (sorted_sim_returns cfgW drW LW drawsW).get ⟨var_index cfgW, h⟩) :=
  ⟨cfgW_one_sim, cfgW_conf_pos, cfgW_conf_lt_one,
   mc_var_return_spec cfgW drW LW drawsW cfgW_one_sim cfgW_conf_pos cfgW_conf_lt_one⟩

/-- Witness for C3 at the concrete one-asset, one-simulation run. -/
theorem mc_es_tail_mean_witness :
    1 ≤ cfgW.num_simulations ∧
    (es_mc_return cfgW drW LW drawsW =
      npMean ((sorted_sim_returns cfgW drW LW drawsW).take (var_index cfgW + 1)) ∧
     (var_index cfgW = 0 → 0 ≤ (sorted_sim_returns cfgW drW LW drawsW).getD 0 0 →
      es_mc_return cfgW drW LW drawsW = (sorted_sim_returns cfgW drW LW drawsW).getD 0 0)) :=
  ⟨cfgW_one_sim, mc_es_tail_mean cfgW drW LW drawsW cfgW_one_sim⟩

/-- Witness for C5 at the concrete one-asset, one-simulation successful run. -/
theorem mc_es_deeper_witness :
    (calculate_monte_carlo_var_es cfgW drW drW (1 : Matrix (Fin 1) (Fin 1) ℝ) drawsW =
      Except.ok (mcRun cfgW drW (choleskyFactor 1) drawsW)) ∧
    1 ≤ cfgW.num_simulations ∧ 0 < cfgW.portfolio_value ∧
    ((mcRun cfgW drW (choleskyFactor 1) drawsW).es_return ≤
       (mcRun cfgW drW (choleskyFactor 1) drawsW).var_return ∧
     (mcRun cfgW drW (choleskyFactor 1) drawsW).var_value ≤
       (mcRun cfgW drW (choleskyFactor 1) drawsW).es_value) :=
  ⟨calcW_ok, cfgW_one_sim, cfgW_pv_pos,
   mc_es_deeper cfgW drW drW 1 drawsW calcW_ok cfgW_one_sim cfgW_pv_pos⟩

/-- Witness for C6 at the concrete one-asset, one-simulation successful run. -/
theorem mc_sorted_output_witness :
    (calculate_monte_carlo_var_es cfgW drW drW (1 : Matrix (Fin 1) (Fin 1) ℝ) drawsW =
      Except.ok (mcRun cfgW drW (choleskyFactor 1) drawsW)) ∧
    ((mcRun cfgW drW (choleskyFactor 1) drawsW).sorted_returns.length =
       cfgW.num_simulations ∧
     List.Sorted (· ≤ ·) (mcRun cfgW drW (choleskyFactor 1) drawsW).sorted_returns) :=
  ⟨calcW_ok, mc_sorted_output cfgW drW drW 1 drawsW calcW_ok⟩

end PortfolioVaR
